import Mathlib

/-!
Verification development for `get_links.py`: a linear script that reads a
tab-separated student roster, fetches a user directory and per-user
submissions from a remote API, joins roster records to directory users by
email, selects each matched student's latest submission by `created_at`,
and prints one line per roster entry.

Modelling conventions:
- File I/O is modelled by passing the roster file content as
  `Option (List String)` (`none` = `FileNotFoundError`, which the code
  catches and turns into an empty record list).
- Network I/O is modelled by passing the two HTTP responses as values: the
  directory response, and a function from user id to that user's
  submissions response.  A response carries its status code and parsed
  JSON payload.
- A raised Python exception is modelled as `Except.error`; normal
  completion as `Except.ok`.
- The per-student lines printed to stdout are collected in a list; the
  purely diagnostic messages (`"Error: The file ... was not found."`,
  `"No student data found. Exiting."`, `"No users fetched from API.
  Exiting."`, stderr fetch-failure logs) are not part of that list, which
  models only the per-roster-entry output described by the spec.
- Python `str.strip` / `str.lower` are modelled on the basic-latin
  fragment (the sample data is ASCII), `csv` quoting is not modelled:
  a roster line is split on the tab character, exactly as the csv reader
  does for lines containing no quote characters.
-/

/-! ## Python string primitives -/

/-- `str.strip()` on a char list: drop leading and trailing whitespace. -/
def pyStripChars (cs : List Char) : List Char :=
  ((cs.dropWhile Char.isWhitespace).reverse.dropWhile Char.isWhitespace).reverse

/-- `str.strip()`. -/
def pyStrip (s : String) : String :=
  String.mk (pyStripChars s.data)

/-- `str.lower()` (basic-latin fragment, matching the ASCII sample data). -/
def pyLower (s : String) : String :=
  String.mk (s.data.map Char.toLower)

/-- `str.rstrip("Z")`: drop every trailing `'Z'`. -/
def pyRstripZ (cs : List Char) : List Char :=
  (cs.reverse.dropWhile (fun c => c = 'Z')).reverse

/-- Split a char list on tab characters (the csv reader's field split for
a line containing no quote characters).  Always returns at least one
field. -/
def splitTabAux : List Char → List Char → List String
  | [], acc => [String.mk acc.reverse]
  | c :: cs, acc =>
    if c = '\t' then String.mk acc.reverse :: splitTabAux cs []
    else splitTabAux cs (c :: acc)

/-- Split a line on the tab delimiter. -/
def splitTab (s : String) : List String :=
  splitTabAux s.data []

/-! ## `datetime`: the result of `datetime.fromisoformat(...).replace(tzinfo=timezone.utc)`

All datetimes built by the script carry `tzinfo=timezone.utc`, so Python's
datetime comparison used by `max` is exactly the lexicographic comparison
of the wall-clock fields below.  Any UTC offset present in the input
string is parsed for well-formedness but then discarded by
`.replace(tzinfo=timezone.utc)`, which keeps the wall-clock fields. -/

structure PyDateTime where
  year : Nat
  month : Nat
  day : Nat
  hour : Nat
  minute : Nat
  second : Nat
  microsecond : Nat
deriving DecidableEq

/-- Python `datetime` comparison (equal `tzinfo`): lexicographic on the
wall-clock fields. -/
def PyDateTime.lt (a b : PyDateTime) : Bool :=
  if a.year ≠ b.year then decide (a.year < b.year)
  else if a.month ≠ b.month then decide (a.month < b.month)
  else if a.day ≠ b.day then decide (a.day < b.day)
  else if a.hour ≠ b.hour then decide (a.hour < b.hour)
  else if a.minute ≠ b.minute then decide (a.minute < b.minute)
  else if a.second ≠ b.second then decide (a.second < b.second)
  else decide (a.microsecond < b.microsecond)

/-- Mixed-radix encoding of the fields; for field values within the ranges
the `datetime` constructor enforces, `PyDateTime.lt` agrees with `Nat`
comparison of keys (proved below). -/
def PyDateTime.key (d : PyDateTime) : Nat :=
  ((((((d.year * 13 + d.month) * 32 + d.day) * 24 + d.hour) * 60 + d.minute)
      * 60 + d.second) * 1000000) + d.microsecond

/-- The field ranges enforced by the `datetime` constructor (`month` and
`day` are also bounded below, but only the upper bounds matter for the
order bridge). -/
def PyDateTime.Bounded (d : PyDateTime) : Prop :=
  d.month ≤ 12 ∧ d.day ≤ 31 ∧ d.hour ≤ 23 ∧ d.minute ≤ 59 ∧
    d.second ≤ 59 ∧ d.microsecond ≤ 999999

/-! ## `datetime.fromisoformat` on the stripped string -/

/-- Numeric value of two decimal digit characters, if both are digits. -/
def digit2 (a b : Char) : Option Nat :=
  if a.isDigit && b.isDigit then
    some ((a.toNat - 48) * 10 + (b.toNat - 48))
  else none

/-- Numeric value of four decimal digit characters, if all are digits. -/
def digit4 (a b c d : Char) : Option Nat :=
  if a.isDigit && b.isDigit && c.isDigit && d.isDigit then
    some ((((a.toNat - 48) * 10 + (b.toNat - 48)) * 10 + (c.toNat - 48)) * 10
      + (d.toNat - 48))
  else none

/-- Fractional-second digits (1 to 6 of them), scaled to microseconds. -/
def fracDigits (cs : List Char) : Option Nat :=
  if cs ≠ [] ∧ cs.length ≤ 6 ∧ cs.all Char.isDigit then
    some ((cs.foldl (fun n c => n * 10 + (c.toNat - 48)) 0)
      * 10 ^ (6 - cs.length))
  else none

/-- Well-formedness of a UTC-offset suffix `±HH:MM` (the offset value is
discarded by `.replace(tzinfo=timezone.utc)`, so only validity matters). -/
def offsetOk (cs : List Char) : Bool :=
  match cs with
  | [sign, h1, h2, ':', m1, m2] =>
    (sign = '+' || sign = '-') &&
      (match digit2 h1 h2, digit2 m1 m2 with
       | some hh, some mm => decide (hh ≤ 23) && decide (mm ≤ 59)
       | _, _ => false)
  | _ => false

/-- Split the time part at the first `'+'` or `'-'`, which can only start
a UTC-offset suffix. -/
def splitAtSign (cs : List Char) : List Char × List Char :=
  (cs.takeWhile (fun c => ¬(c = '+' ∨ c = '-')),
   cs.dropWhile (fun c => ¬(c = '+' ∨ c = '-')))

/-- Parse the time-of-day part `HH[:MM[:SS[.ffffff]]][±HH:MM]` into
`(hour, minute, second, microsecond)`. -/
def parseTimePart (cs : List Char) : Option (Nat × Nat × Nat × Nat) :=
  let base := (splitAtSign cs).1
  let off := (splitAtSign cs).2
  if off = [] ∨ offsetOk off then
    match base with
    | [h1, h2] =>
      (digit2 h1 h2).bind fun h => some (h, 0, 0, 0)
    | [h1, h2, ':', m1, m2] =>
      (digit2 h1 h2).bind fun h =>
      (digit2 m1 m2).bind fun mi => some (h, mi, 0, 0)
    | [h1, h2, ':', m1, m2, ':', s1, s2] =>
      (digit2 h1 h2).bind fun h =>
      (digit2 m1 m2).bind fun mi =>
      (digit2 s1 s2).bind fun s => some (h, mi, s, 0)
    | h1 :: h2 :: ':' :: m1 :: m2 :: ':' :: s1 :: s2 :: '.' :: frac =>
      (digit2 h1 h2).bind fun h =>
      (digit2 m1 m2).bind fun mi =>
      (digit2 s1 s2).bind fun s =>
      (fracDigits frac).bind fun us => some (h, mi, s, us)
    | _ => none
  else none

/-- Syntactic field extraction for `YYYY-MM-DD[<sep>time]` (the separator
may be any single character). -/
def extractFields (cs : List Char) :
    Option (Nat × Nat × Nat × Nat × Nat × Nat × Nat) :=
  match cs with
  | y1 :: y2 :: y3 :: y4 :: '-' :: mo1 :: mo2 :: '-' :: d1 :: d2 :: rest =>
    (digit4 y1 y2 y3 y4).bind fun y =>
    (digit2 mo1 mo2).bind fun mo =>
    (digit2 d1 d2).bind fun d =>
      match rest with
      | [] => some (y, mo, d, 0, 0, 0, 0)
      | _ :: t =>
        (parseTimePart t).map fun hms =>
          (y, mo, d, hms.1, hms.2.1, hms.2.2.1, hms.2.2.2)
  | _ => none

/-- Gregorian leap-year rule, as used by `datetime`. -/
def isLeapYear (y : Nat) : Bool :=
  y % 4 = 0 && (y % 100 ≠ 0 || y % 400 = 0)

/-- Days in a month, as validated by the `datetime` constructor. -/
def daysInMonth (y m : Nat) : Nat :=
  if m = 2 then (if isLeapYear y then 29 else 28)
  else if m = 4 ∨ m = 6 ∨ m = 9 ∨ m = 11 then 30
  else 31

/-- The `datetime` constructor: validates the field ranges, raising
`ValueError` (here: `none`) otherwise. -/
def mkPyDateTime (y mo d h mi s us : Nat) : Option PyDateTime :=
  if 1 ≤ y ∧ y ≤ 9999 ∧ 1 ≤ mo ∧ mo ≤ 12 ∧ 1 ≤ d ∧ d ≤ daysInMonth y mo ∧
      h ≤ 23 ∧ mi ≤ 59 ∧ s ≤ 59 ∧ us ≤ 999999 then
    some ⟨y, mo, d, h, mi, s, us⟩
  else none

/-- `datetime.fromisoformat` on a char list. -/
def fromisoChars (cs : List Char) : Option PyDateTime :=
  (extractFields cs).bind fun f =>
    mkPyDateTime f.1 f.2.1 f.2.2.1 f.2.2.2.1 f.2.2.2.2.1 f.2.2.2.2.2.1
      f.2.2.2.2.2.2

/-- `parse_iso_datetime`:
`datetime.fromisoformat(iso_string.rstrip("Z")).replace(tzinfo=timezone.utc)`.
A parse failure is the raised `ValueError`. -/
def parse_iso_datetime (iso_string : String) : Except String PyDateTime :=
  match fromisoChars (pyRstripZ iso_string.data) with
  | some d => Except.ok d
  | none => Except.error "ValueError: Invalid isoformat string"

/-! ## Data model -/

/-- One roster record (the `preferred_name` column is read but never
stored by the script). -/
structure StudentRecord where
  first_name : String
  last_name : String
  email : String
deriving DecidableEq

/-- One entry of the directory response's `"users"` array. -/
structure RemoteUser where
  email : String
  id : Int
deriving DecidableEq

/-- One entry of a submissions response's `"submissions"` array: a JSON
object with (at least) the `"id"` and `"created_at"` keys the script
reads. -/
structure Submission where
  id : Int
  created_at : String
deriving DecidableEq

/-- The directory HTTP response: status code plus the `"users"` array of
its JSON body (`response.json().get("users", [])`). -/
structure UsersResponse where
  status_code : Nat
  users : List RemoteUser

/-- A per-student submissions HTTP response: status code plus the
`"submissions"` array of its JSON body. -/
structure SubmissionsResponse where
  status_code : Nat
  submissions : List Submission

/-! ## Constants (`API_ID`, `SLIDE_ID` and the URL templates) -/

def API_ID : Nat := 134120

def SLIDE_ID : Nat := 414786

/-- `SUBMISSION_URL_TEMPLATE` instantiated with a student id and a
submission id. -/
def SUBMISSION_URL (student_id submission_id : Int) : String :=
  "https://edstem.org/au/courses/18651/lessons/61238/slides/"
    ++ toString SLIDE_ID ++ "/submissions?u=" ++ toString student_id
    ++ "&s=" ++ toString submission_id

/-- `MISSING_EMAIL_URL_TEMPLATE` instantiated with a query string. -/
def MISSING_EMAIL_URL (query : String) : String :=
  "https://edstem.org/au/courses/18651/lessons/61238/slides/"
    ++ toString SLIDE_ID ++ "/submissions?q=" ++ query

/-! ## `read_student_data` -/

/-- `csv.DictReader` row handling with
`fieldnames=["first_name", "last_name", "preferred_name", "email"]`:
fields are assigned positionally, surplus fields go to the rest key
(unused), and a missing field is `None`, so that `.strip()` on it raises
`AttributeError`.  The script stores the stripped first and last names and
the stripped, lower-cased email; `preferred_name` is dropped. -/
def parseRow (fields : List String) : Except String StudentRecord :=
  match fields with
  | first :: last :: _preferred :: email :: _ =>
    Except.ok
      { first_name := pyStrip first
        last_name := pyStrip last
        email := pyLower (pyStrip email) }
  | _ =>
    Except.error "AttributeError: NoneType object has no attribute strip"

/-- `read_student_data`: the roster file content is `none` when the file
is missing (`FileNotFoundError` is caught: an error message is printed
and `[]` returned).  The csv reader skips blank lines (they produce the
empty row); every other line is split on tabs and turned into a record.
An uncaught exception while building a record aborts the whole read. -/
def read_student_data (file : Option (List String)) :
    Except String (List StudentRecord) :=
  match file with
  | none => Except.ok []
  | some lines =>
    (lines.filter (fun l => l ≠ "")).mapM (fun l => parseRow (splitTab l))

/-! ## Fetchers -/

/-- `fetch_users`: the `"users"` array on HTTP 200, otherwise a logged
failure and `[]`. -/
def fetch_users (response : UsersResponse) : List RemoteUser :=
  if response.status_code = 200 then response.users else []

/-- `fetch_submissions`: the `"submissions"` array on HTTP 200, otherwise
a logged failure and `[]`. -/
def fetch_submissions (response : SubmissionsResponse) : List Submission :=
  if response.status_code = 200 then response.submissions else []

/-! ## `find_accepted_submission` -/

/-- One step of Python's `max(submissions, key=...)`: evaluate the key of
the next element (any `ValueError` from parsing propagates) and replace
the current best only when the new key is strictly greater — ties keep
the earlier element. -/
def maxStep (best : Submission × PyDateTime) (x : Submission) :
    Except String (Submission × PyDateTime) :=
  match parse_iso_datetime x.created_at with
  | Except.error e => Except.error e
  | Except.ok kx =>
    Except.ok (if PyDateTime.lt best.2 kx then (x, kx) else best)

/-- `find_accepted_submission`:
`max(submissions, key=lambda s: parse_iso_datetime(s["created_at"]))`.
`max` over an empty sequence raises `ValueError`. -/
def find_accepted_submission (submissions : List Submission) :
    Except String Submission :=
  match submissions with
  | [] => Except.error "ValueError: max() arg is an empty sequence"
  | s :: rest =>
    match parse_iso_datetime s.created_at with
    | Except.error e => Except.error e
    | Except.ok k =>
      match rest.foldlM maxStep (s, k) with
      | Except.error e => Except.error e
      | Except.ok r => Except.ok r.1

/-! ## `main` -/

/-- Lookup in `user_dict = {user["email"]: user["id"] for user in users}`:
a later user with the same email overwrites an earlier one. -/
def user_dict_lookup (users : List RemoteUser) (email : String) :
    Option Int :=
  users.foldl (fun acc u => if u.email = email then some u.id else acc) none

/-- Python truthiness of `latest_submission`: it is an element of the
fetched list, i.e. a JSON object carrying at least the `"id"` and
`"created_at"` keys, hence a non-empty dict, hence truthy. -/
def submissionTruthy (_ : Submission) : Bool := true

/-- The body of `main`'s per-student loop, producing that student's output
line.  `now` is the stringified `current_datetime` computed once at the
start of `main`. -/
def process_student (users : List RemoteUser)
    (subsResp : Int → SubmissionsResponse) (now : String)
    (student : StudentRecord) : Except String String :=
  match user_dict_lookup users student.email with
  | some student_id =>
    let submissions := fetch_submissions (subsResp student_id)
    if submissions = [] then
      Except.ok ("No submissions found, as of " ++ now)
    else
      match find_accepted_submission submissions with
      | Except.error e => Except.error e
      | Except.ok latest =>
        if submissionTruthy latest then
          Except.ok (SUBMISSION_URL student_id latest.id)
        else
          Except.ok "LATE - No valid submissions before cutoff datetime"
  | none =>
    Except.ok (MISSING_EMAIL_URL
      (student.first_name ++ "%20" ++ student.last_name))

/-- `main`: read the roster (exit early when empty), fetch the directory
(exit early when empty), then emit one line per roster record.  The
result is the list of per-roster-entry output lines; `Except.error`
models an uncaught exception. -/
def script_main (roster : Option (List String)) (usersResp : UsersResponse)
    (subsResp : Int → SubmissionsResponse) (now : String) :
    Except String (List String) :=
  match read_student_data roster with
  | Except.error e => Except.error e
  | Except.ok students =>
    if students = [] then Except.ok []
    else
      let users := fetch_users usersResp
      if users = [] then Except.ok []
      else students.mapM (process_student users subsResp now)

/-! ## Definitions taken from the spec's words (for comparison with the
code) -/

/-- One character of standard URL percent-encoding: unreserved characters
kept, everything else (in particular a space) rendered `%HH`. -/
def percentEncodeChar (c : Char) : List Char :=
  if c.isAlphanum ∨ c = '-' ∨ c = '.' ∨ c = '_' ∨ c = '~' then [c]
  else
    ['%', (if c.toNat / 16 % 16 < 10 then Char.ofNat (48 + c.toNat / 16 % 16)
           else Char.ofNat (55 + c.toNat / 16 % 16)),
      (if c.toNat % 16 < 10 then Char.ofNat (48 + c.toNat % 16)
       else Char.ofNat (55 + c.toNat % 16))]

/-- Modelled from the spec: "first+last name URL-encoded into a query
parameter" — the URL encoding of a string, to compare with the query the
code actually builds. -/
def urlEncodeSpec (s : String) : String :=
  String.mk (s.data.foldr (fun c acc => percentEncodeChar c ++ acc) [])

/-! ## Decidable helpers used in claim statements -/

/-- Whether a submission's `created_at` parses. -/
def parsesOk (s : Submission) : Bool :=
  match parse_iso_datetime s.created_at with
  | Except.ok _ => true
  | Except.error _ => false

/-- The comparison key of a submission's parsed `created_at` (0 when the
string does not parse), used to state maximality decidably. -/
def parsedKey (s : Submission) : Nat :=
  match parse_iso_datetime s.created_at with
  | Except.ok d => d.key
  | Except.error _ => 0

/-! # Theorems -/

/-! ## Order bridge for `PyDateTime` -/

theorem daysInMonth_le (y m : Nat) : daysInMonth y m ≤ 31 := by
  unfold daysInMonth
  split
  · split <;> omega
  · split <;> omega

theorem mkPyDateTime_bounded {y mo d h mi s us : Nat} {dt : PyDateTime}
    (hmk : mkPyDateTime y mo d h mi s us = some dt) : dt.Bounded := by
  unfold mkPyDateTime at hmk
  split at hmk
  · rename_i hcond
    cases hmk
    have hdm := daysInMonth_le y mo
    dsimp only [PyDateTime.Bounded]
    omega
  · exact Option.noConfusion hmk

theorem fromisoChars_bounded {cs : List Char} {d : PyDateTime}
    (h : fromisoChars cs = some d) : d.Bounded := by
  unfold fromisoChars at h
  rcases hx : extractFields cs with _ | f
  · rw [hx] at h; exact absurd h (by simp)
  · rw [hx] at h
    rw [Option.some_bind] at h
    exact mkPyDateTime_bounded h

theorem parse_iso_datetime_bounded {s : String} {d : PyDateTime}
    (h : parse_iso_datetime s = Except.ok d) : d.Bounded := by
  unfold parse_iso_datetime at h
  rcases hx : fromisoChars (pyRstripZ s.data) with _ | d0
  · rw [hx] at h; exact absurd h (by simp)
  · rw [hx] at h
    cases h
    exact fromisoChars_bounded hx

theorem PyDateTime.lt_iff_key {a b : PyDateTime}
    (ha : a.Bounded) (hb : b.Bounded) :
    PyDateTime.lt a b = true ↔ a.key < b.key := by
  obtain ⟨ham, had, hah, hami, has, hau⟩ := ha
  obtain ⟨hbm, hbd, hbh, hbmi, hbs, hbu⟩ := hb
  simp only [PyDateTime.lt, PyDateTime.key]
  split_ifs <;> simp only [decide_eq_true_eq] <;> omega

theorem PyDateTime.key_inj {a b : PyDateTime}
    (ha : a.Bounded) (hb : b.Bounded) (h : a.key = b.key) : a = b := by
  obtain ⟨ham, had, hah, hami, has, hau⟩ := ha
  obtain ⟨hbm, hbd, hbh, hbmi, hbs, hbu⟩ := hb
  cases a
  cases b
  simp only [PyDateTime.key] at h ham had hah hami has hau hbm hbd hbh hbmi hbs hbu
  simp only [PyDateTime.mk.injEq]
  omega

/-! ## The `max(..., key=...)` fold -/

theorem parsesOk_iff {s : Submission} :
    parsesOk s = true ↔ ∃ k, parse_iso_datetime s.created_at = Except.ok k := by
  unfold parsesOk
  rcases h : parse_iso_datetime s.created_at with e | k <;> simp

theorem maxStep_fold (l : List Submission) :
    ∀ (b : Submission) (kb : PyDateTime),
      parse_iso_datetime b.created_at = Except.ok kb →
      (∀ x ∈ l, parsesOk x = true) →
      ∃ r kr, l.foldlM maxStep (b, kb) = Except.ok (r, kr) ∧
        parse_iso_datetime r.created_at = Except.ok kr ∧
        kb.key ≤ kr.key ∧
        (∀ x ∈ l, ∀ kx, parse_iso_datetime x.created_at = Except.ok kx →
          kx.key ≤ kr.key) ∧
        ((r = b ∧ kr = kb) ∨
          ∃ pre post, l = pre ++ r :: post ∧ kb.key < kr.key ∧
            ∀ x ∈ pre, ∀ kx,
              parse_iso_datetime x.created_at = Except.ok kx →
                kx.key < kr.key) := by
  induction l with
  | nil =>
    intro b kb hb _
    exact ⟨b, kb, rfl, hb, Nat.le_refl _, by simp, Or.inl ⟨rfl, rfl⟩⟩
  | cons x xs ih =>
    intro b kb hb hl
    obtain ⟨kx, hkx⟩ := parsesOk_iff.mp (hl x (List.mem_cons_self x xs))
    have hxs : ∀ y ∈ xs, parsesOk y = true :=
      fun y hy => hl y (List.mem_cons_of_mem x hy)
    have hbB := parse_iso_datetime_bounded hb
    have hxB := parse_iso_datetime_bounded hkx
    have hfold : (x :: xs).foldlM maxStep (b, kb) =
        xs.foldlM maxStep (if PyDateTime.lt kb kx then (x, kx) else (b, kb)) := by
      rw [List.foldlM_cons]
      unfold maxStep
      rw [hkx]
      rfl
    by_cases hlt : PyDateTime.lt kb kx = true
    · have hkey : kb.key < kx.key := (PyDateTime.lt_iff_key hbB hxB).mp hlt
      obtain ⟨r, kr, hrun, hpr, hle, hmax, hfirst⟩ := ih x kx hkx hxs
      refine ⟨r, kr, ?_, hpr, by omega, ?_, ?_⟩
      · rw [hfold, hlt]
        simpa using hrun
      · intro y hy ky hky
        rcases List.mem_cons.mp hy with hy | hy
        · subst hy
          rw [hkx] at hky
          cases hky
          omega
        · exact hmax y hy ky hky
      · rcases hfirst with ⟨hrx, hkk⟩ | ⟨pre, post, hdec, hgt, hpre⟩
        · subst hrx; subst hkk
          exact Or.inr ⟨[], xs, rfl, hkey, by simp⟩
        · refine Or.inr ⟨x :: pre, post, by rw [hdec]; rfl, by omega, ?_⟩
          intro y hy ky hky
          rcases List.mem_cons.mp hy with hy | hy
          · subst hy
            rw [hkx] at hky
            cases hky
            omega
          · exact hpre y hy ky hky
    · have hge : kx.key ≤ kb.key := by
        have := (PyDateTime.lt_iff_key hbB hxB).not.mp
          (by simpa using hlt)
        omega
      obtain ⟨r, kr, hrun, hpr, hle, hmax, hfirst⟩ := ih b kb hb hxs
      refine ⟨r, kr, ?_, hpr, hle, ?_, ?_⟩
      · rw [hfold, if_neg (by simpa using hlt)]
        exact hrun
      · intro y hy ky hky
        rcases List.mem_cons.mp hy with hy | hy
        · subst hy
          rw [hkx] at hky
          cases hky
          omega
        · exact hmax y hy ky hky
      · rcases hfirst with hbase | ⟨pre, post, hdec, hgt, hpre⟩
        · exact Or.inl hbase
        · refine Or.inr ⟨x :: pre, post, by rw [hdec]; rfl, hgt, ?_⟩
          intro y hy ky hky
          rcases List.mem_cons.mp hy with hy | hy
          · subst hy
            rw [hkx] at hky
            cases hky
            omega
          · exact hpre y hy ky hky

/-- `find_accepted_submission` on a non-empty list of parseable
submissions succeeds and returns the first submission attaining the
maximal parsed `created_at` (Python's `max` keeps the earlier element on
ties). -/
theorem find_accepted_submission_spec (subs : List Submission)
    (hne : subs ≠ [])
    (hp : ∀ x ∈ subs, parsesOk x = true) :
    ∃ r kr pre post,
      find_accepted_submission subs = Except.ok r ∧
      parse_iso_datetime r.created_at = Except.ok kr ∧
      subs = pre ++ r :: post ∧
      (∀ x ∈ subs, ∀ kx, parse_iso_datetime x.created_at = Except.ok kx →
        kx.key ≤ kr.key) ∧
      (∀ x ∈ pre, ∀ kx, parse_iso_datetime x.created_at = Except.ok kx →
        kx.key < kr.key) := by
  match subs with
  | [] => exact absurd rfl hne
  | s :: rest =>
    obtain ⟨k, hk⟩ := parsesOk_iff.mp (hp s (List.mem_cons_self s rest))
    have hrest : ∀ y ∈ rest, parsesOk y = true :=
      fun y hy => hp y (List.mem_cons_of_mem s hy)
    obtain ⟨r, kr, hrun, hpr, hle, hmax, hfirst⟩ :=
      maxStep_fold rest s k hk hrest
    have hfind : find_accepted_submission (s :: rest) = Except.ok r := by
      simp only [find_accepted_submission, hk, hrun]
    have hmaxall : ∀ x ∈ s :: rest, ∀ kx,
        parse_iso_datetime x.created_at = Except.ok kx → kx.key ≤ kr.key := by
      intro y hy ky hky
      rcases List.mem_cons.mp hy with hy | hy
      · subst hy
        rw [hk] at hky
        cases hky
        exact hle
      · exact hmax y hy ky hky
    rcases hfirst with ⟨hrs, hkk⟩ | ⟨pre, post, hdec, hgt, hpre⟩
    · refine ⟨r, kr, [], rest, hfind, hpr, ?_, hmaxall, by simp⟩
      rw [hrs]
      rfl
    · refine ⟨r, kr, s :: pre, post, hfind, hpr, by rw [hdec]; rfl, hmaxall, ?_⟩
      intro y hy ky hky
      rcases List.mem_cons.mp hy with hy | hy
      · subst hy
        rw [hk] at hky
        cases hky
        exact hgt
      · exact hpre y hy ky hky

/-! ## Generic helpers: `Except`, `mapM`, strings, characters -/

instance exceptDecEq {ε α : Type} [DecidableEq ε] [DecidableEq α] :
    DecidableEq (Except ε α) := fun a b =>
  match a, b with
  | Except.error e1, Except.error e2 =>
    if h : e1 = e2 then isTrue (by rw [h])
    else isFalse (fun hh => h (by cases hh; rfl))
  | Except.error _, Except.ok _ => isFalse (fun hh => Except.noConfusion hh)
  | Except.ok _, Except.error _ => isFalse (fun hh => Except.noConfusion hh)
  | Except.ok a1, Except.ok a2 =>
    if h : a1 = a2 then isTrue (by rw [h])
    else isFalse (fun hh => h (by cases hh; rfl))

theorem except_bind_ok {α β : Type} (a : α) (f : α → Except String β) :
    (Except.ok a >>= f) = f a := rfl

theorem except_bind_error {α β : Type} (e : String) (f : α → Except String β) :
    ((Except.error e : Except String α) >>= f) = Except.error e := rfl

theorem except_pure {α : Type} (a : α) :
    (pure a : Except String α) = Except.ok a := rfl

theorem mapM_ok_of_all {α β : Type} (f : α → Except String β) (g : α → β) :
    ∀ (l : List α), (∀ a ∈ l, f a = Except.ok (g a)) →
      l.mapM f = Except.ok (l.map g) := by
  intro l
  induction l with
  | nil => intro _; rfl
  | cons a l ih =>
    intro h
    rw [List.mapM_cons, h a (List.mem_cons_self a l),
      ih (fun x hx => h x (List.mem_cons_of_mem a hx))]
    rfl

theorem mapM_ok_length {α β : Type} (f : α → Except String β) :
    ∀ (l : List α) (res : List β), l.mapM f = Except.ok res →
      res.length = l.length := by
  intro l
  induction l with
  | nil =>
    intro res h
    rw [List.mapM_nil, except_pure] at h
    cases h
    rfl
  | cons a l ih =>
    intro res h
    rw [List.mapM_cons] at h
    rcases hfa : f a with e | b <;> rw [hfa] at h
    · rw [except_bind_error] at h
      exact Except.noConfusion h
    · rw [except_bind_ok] at h
      rcases hml : l.mapM f with e2 | bs <;> rw [hml] at h
      · rw [except_bind_error] at h
        exact Except.noConfusion h
      · rw [except_bind_ok, except_pure] at h
        cases h
        simp [ih bs hml]

theorem mapM_ok_mem {α β : Type} (f : α → Except String β) :
    ∀ (l : List α) (res : List β), l.mapM f = Except.ok res →
      ∀ r ∈ res, ∃ a ∈ l, f a = Except.ok r := by
  intro l
  induction l with
  | nil =>
    intro res h
    rw [List.mapM_nil, except_pure] at h
    cases h
    intro r hr
    exact absurd hr (List.not_mem_nil r)
  | cons a l ih =>
    intro res h
    rw [List.mapM_cons] at h
    rcases hfa : f a with e | b <;> rw [hfa] at h
    · rw [except_bind_error] at h
      exact Except.noConfusion h
    · rw [except_bind_ok] at h
      rcases hml : l.mapM f with e2 | bs <;> rw [hml] at h
      · rw [except_bind_error] at h
        exact Except.noConfusion h
      · rw [except_bind_ok, except_pure] at h
        cases h
        intro r hr
        rcases List.mem_cons.mp hr with hr | hr
        · exact ⟨a, List.mem_cons_self a l, by rw [hfa, hr]⟩
        · obtain ⟨x, hx, hfx⟩ := ih bs hml r hr
          exact ⟨x, List.mem_cons_of_mem a hx, hfx⟩

theorem string_ne_of_data_head {t1 t2 : String} {c1 c2 : Char}
    {l1 l2 : List Char} (h1 : t1.data = c1 :: l1) (h2 : t2.data = c2 :: l2)
    (hne : c1 ≠ c2) : t1 ≠ t2 := by
  intro h
  rw [h, h2] at h1
  exact hne (List.cons.injEq .. ▸ h1).1.symm

theorem toLower_not_upper (c : Char) : (Char.toLower c).isUpper = false := by
  unfold Char.toLower
  simp only []
  by_cases h : c.toNat ≥ 65 ∧ c.toNat ≤ 90
  · rw [if_pos h]
    obtain ⟨h1, h2⟩ := h
    interval_cases hc : c.toNat <;> decide
  · rw [if_neg h]
    simp only [Char.isUpper]
    rw [Bool.and_eq_false_iff]
    by_cases h65 : (65 : UInt32) ≤ c.val
    · right
      simp only [decide_eq_false_iff_not]
      intro hle
      have n1 : 65 ≤ c.toNat := by
        have hb := BitVec.le_def.mp (UInt32.le_def.mp h65)
        simpa using hb
      have n2 : c.toNat ≤ 90 := by
        have hb := BitVec.le_def.mp (UInt32.le_def.mp hle)
        simpa using hb
      exact h ⟨n1, n2⟩
    · left
      simp only [ge_iff_le, decide_eq_false_iff_not]
      exact h65

theorem pyLower_no_upper (s : String) :
    ∀ c ∈ (pyLower s).data, c.isUpper = false := by
  intro c hc
  unfold pyLower at hc
  simp only [List.mem_map] at hc
  obtain ⟨c0, _, hc0⟩ := hc
  rw [← hc0]
  exact toLower_not_upper c0

/-! ## Program-specific helper lemmas -/

theorem parsedKey_eq {s : Submission} {k : PyDateTime}
    (h : parse_iso_datetime s.created_at = Except.ok k) :
    parsedKey s = k.key := by
  unfold parsedKey
  rw [h]

theorem list_four_shape {xs : List String} (h : xs.length = 4) :
    xs = [xs.getD 0 "", xs.getD 1 "", xs.getD 2 "", xs.getD 3 ""] := by
  rcases xs with _ | ⟨a, _ | ⟨b, _ | ⟨c, _ | ⟨d, _ | ⟨e, tl⟩⟩⟩⟩⟩ <;>
    first
      | rfl
      | (simp only [List.length_cons, List.length_nil] at h; omega)

theorem splitTab_four_ne_empty {l : String}
    (h : (splitTab l).length = 4) : l ≠ "" := by
  intro he
  rw [he] at h
  exact absurd h (by decide)

theorem process_student_notice (users : List RemoteUser)
    (subsResp : Int → SubmissionsResponse) (now : String)
    (student : StudentRecord) (sid : Int)
    (hl : user_dict_lookup users student.email = some sid)
    (hs : fetch_submissions (subsResp sid) = []) :
    process_student users subsResp now student =
      Except.ok ("No submissions found, as of " ++ now) := by
  unfold process_student
  rw [hl]
  simp only [hs, if_pos]

theorem parseRow_email_shape {fields : List String} {st : StudentRecord}
    (h : parseRow fields = Except.ok st) :
    ∃ e, st.email = pyLower (pyStrip e) := by
  unfold parseRow at h
  rcases fields with _ | ⟨a, _ | ⟨b, _ | ⟨c, _ | ⟨d, rest⟩⟩⟩⟩
  · exact Except.noConfusion h
  · exact Except.noConfusion h
  · exact Except.noConfusion h
  · exact Except.noConfusion h
  · cases h
    exact ⟨d, rfl⟩

theorem user_dict_lookup_none (email : String) :
    ∀ (users : List RemoteUser),
      (∀ v ∈ users, v.email ≠ email) →
      user_dict_lookup users email = none := by
  have haux : ∀ (users : List RemoteUser) (acc : Option Int),
      (∀ v ∈ users, v.email ≠ email) →
      users.foldl
        (fun acc u => if u.email = email then some u.id else acc) acc = acc := by
    intro users
    induction users with
    | nil => intro acc _; rfl
    | cons u us ih =>
      intro acc h
      rw [List.foldl_cons, if_neg (h u (List.mem_cons_self u us))]
      exact ih acc (fun v hv => h v (List.mem_cons_of_mem u hv))
  intro users h
  exact haux users none h

theorem data_head_append (a t : String) (c : Char) (l : List Char)
    (ha : a.data = c :: l) : (a ++ t).data = c :: (l ++ t.data) := by
  rw [String.data_append, ha]
  rfl

theorem notice_ne_late (now : String) :
    ("No submissions found, as of " ++ now) ≠
      "LATE - No valid submissions before cutoff datetime" := by
  refine string_ne_of_data_head
    (data_head_append _ now 'N' "o submissions found, as of ".data rfl)
    (rfl : ("LATE - No valid submissions before cutoff datetime" : String).data
      = 'L' :: "ATE - No valid submissions before cutoff datetime".data)
    (by decide)

theorem submission_url_ne_late (i j : Int) :
    SUBMISSION_URL i j ≠
      "LATE - No valid submissions before cutoff datetime" := by
  unfold SUBMISSION_URL
  refine string_ne_of_data_head
    (data_head_append _ _ 'h' _
      (data_head_append _ _ 'h' _
        (data_head_append _ _ 'h' _
          (data_head_append _ _ 'h' _
            (data_head_append _ _ 'h'
              "ttps://edstem.org/au/courses/18651/lessons/61238/slides/".data
              rfl)))))
    (rfl : ("LATE - No valid submissions before cutoff datetime" : String).data
      = 'L' :: "ATE - No valid submissions before cutoff datetime".data)
    (by decide)

theorem missing_url_ne_late (q : String) :
    MISSING_EMAIL_URL q ≠
      "LATE - No valid submissions before cutoff datetime" := by
  unfold MISSING_EMAIL_URL
  refine string_ne_of_data_head
    (data_head_append _ _ 'h' _
      (data_head_append _ _ 'h' _
        (data_head_append _ _ 'h'
          "ttps://edstem.org/au/courses/18651/lessons/61238/slides/".data
          rfl)))
    (rfl : ("LATE - No valid submissions before cutoff datetime" : String).data
      = 'L' :: "ATE - No valid submissions before cutoff datetime".data)
    (by decide)

/-! ## Claim theorems -/

/-- C3: if the roster file does not exist, `read_student_data` returns an
empty record set and the program halts without producing any per-student
output line. -/
theorem C3_missing_roster_halts :
    read_student_data none = Except.ok [] ∧
    ∀ (usersResp : UsersResponse) (subsResp : Int → SubmissionsResponse)
      (now : String),
      script_main none usersResp subsResp now = Except.ok [] :=
  ⟨rfl, fun _ _ _ => rfl⟩

/-- C8: a roster line with fewer than four tab-separated fields makes
`read_student_data` raise (`.strip()` on the missing field's `None`)
instead of returning a record or reporting failure: the reader is not
total over arbitrary text files. -/
theorem C8_short_line_raises :
    read_student_data (some ["ZAKA\tABBASOV\t-"]) =
      Except.error "AttributeError: NoneType object has no attribute strip" :=
  rfl

/-- C4 (amended): for a roster record whose email is absent from the
email-to-id mapping, the output line is the missing-email search URL whose
query parameter is the first name, a literal `%20`, and the last name,
with the names inserted verbatim (only the separating space is rendered as
a percent-encoded space; the names themselves are not URL-encoded). -/
theorem C4_missing_email_query_verbatim
    (users : List RemoteUser) (subsResp : Int → SubmissionsResponse)
    (now : String) (student : StudentRecord)
    (h : user_dict_lookup users student.email = none) :
    process_student users subsResp now student =
      Except.ok (MISSING_EMAIL_URL
        (student.first_name ++ "%20" ++ student.last_name)) := by
  unfold process_student
  rw [h]

theorem C4_missing_email_query_verbatim_witness :
    process_student [] (fun _ => SubmissionsResponse.mk 200 []) "now"
      { first_name := "KASHYAP KOUTILYA", last_name := "ADIPUDI",
        email := "kadi0215@uni.sydney.edu.au" } =
      Except.ok (MISSING_EMAIL_URL
        ("KASHYAP KOUTILYA" ++ "%20" ++ "ADIPUDI")) :=
  C4_missing_email_query_verbatim [] (fun _ => SubmissionsResponse.mk 200 [])
    "now"
    { first_name := "KASHYAP KOUTILYA", last_name := "ADIPUDI",
      email := "kadi0215@uni.sydney.edu.au" }
    rfl

/-- C4 counterexample: for the sample roster's two-word first name
"KASHYAP KOUTILYA" the emitted query is NOT the URL-encoded first and last
name (the embedded space is passed through unencoded), so the claim as
stated fails. -/
theorem C4_counterexample :
    ¬ (process_student [] (fun _ => SubmissionsResponse.mk 200 []) "now"
        { first_name := "KASHYAP KOUTILYA", last_name := "ADIPUDI",
          email := "kadi0215@uni.sydney.edu.au" } =
      Except.ok (MISSING_EMAIL_URL
        (urlEncodeSpec ("KASHYAP KOUTILYA" ++ " " ++ "ADIPUDI")))) := by
  decide

/-- C5: a matched student whose fetched submission list is empty produces
the "no submissions found" notice (carrying the current time) rather than
a crash; `max` (which would raise on an empty sequence, second conjunct)
is never reached on the empty list. -/
theorem C5_empty_submissions_notice :
    (∀ (users : List RemoteUser) (subsResp : Int → SubmissionsResponse)
        (now : String) (student : StudentRecord) (sid : Int),
      user_dict_lookup users student.email = some sid →
      fetch_submissions (subsResp sid) = [] →
      process_student users subsResp now student =
        Except.ok ("No submissions found, as of " ++ now)) ∧
    find_accepted_submission [] =
      Except.error "ValueError: max() arg is an empty sequence" :=
  ⟨process_student_notice, rfl⟩

theorem C5_empty_submissions_notice_witness :
    process_student [RemoteUser.mk "jane@uni.edu" 7]
      (fun _ => SubmissionsResponse.mk 404
        [Submission.mk 99 "2024-01-01T00:00:00Z"]) "now"
      { first_name := "Jane", last_name := "Doe", email := "jane@uni.edu" } =
      Except.ok ("No submissions found, as of " ++ "now") :=
  C5_empty_submissions_notice.1 [RemoteUser.mk "jane@uni.edu" 7]
    (fun _ => SubmissionsResponse.mk 404
      [Submission.mk 99 "2024-01-01T00:00:00Z"]) "now"
    { first_name := "Jane", last_name := "Doe", email := "jane@uni.edu" } 7
    (by decide) (by decide)

/-- C2: for a roster file of N lines that each split on tab into four
positional columns, `read_student_data` returns exactly N records, the
first name, last name and email whitespace-trimmed, and the email
additionally lower-cased. -/
theorem C2_roster_reader (lines : List String)
    (hw : ∀ l ∈ lines, (splitTab l).length = 4) :
    ∃ recs : List StudentRecord,
      read_student_data (some lines) = Except.ok recs ∧
      recs.length = lines.length ∧
      recs = lines.map (fun l =>
        { first_name := pyStrip ((splitTab l).getD 0 "")
          last_name := pyStrip ((splitTab l).getD 1 "")
          email := pyLower (pyStrip ((splitTab l).getD 3 "")) }) := by
  have hfilter : lines.filter (fun l => l ≠ "") = lines := by
    rw [List.filter_eq_self]
    intro a ha
    simpa using splitTab_four_ne_empty (hw a ha)
  have hall : ∀ l ∈ lines, parseRow (splitTab l) = Except.ok
      { first_name := pyStrip ((splitTab l).getD 0 "")
        last_name := pyStrip ((splitTab l).getD 1 "")
        email := pyLower (pyStrip ((splitTab l).getD 3 "")) } := by
    intro l hl
    conv_lhs => rw [list_four_shape (hw l hl)]
    rfl
  refine ⟨_, ?_, by simp, rfl⟩
  have hrw : read_student_data (some lines) =
      (lines.filter (fun l => l ≠ "")).mapM (fun l => parseRow (splitTab l)) :=
    rfl
  rw [hrw, hfilter]
  exact mapM_ok_of_all _ _ lines hall

theorem C2_roster_reader_witness :
    ∃ recs : List StudentRecord,
      read_student_data
        (some ["ZAKA\tABBASOV\t-\tZABB0738@UNI.SYDNEY.EDU.AU"]) =
        Except.ok recs ∧
      recs.length = ["ZAKA\tABBASOV\t-\tZABB0738@UNI.SYDNEY.EDU.AU"].length ∧
      recs = ["ZAKA\tABBASOV\t-\tZABB0738@UNI.SYDNEY.EDU.AU"].map (fun l =>
        { first_name := pyStrip ((splitTab l).getD 0 "")
          last_name := pyStrip ((splitTab l).getD 1 "")
          email := pyLower (pyStrip ((splitTab l).getD 3 "")) }) :=
  C2_roster_reader ["ZAKA\tABBASOV\t-\tZABB0738@UNI.SYDNEY.EDU.AU"]
    (by decide)

/-- C6: on a non-empty (parseable) submission list the selection step
returns one of the existing submissions, and consequently the
"LATE - No valid submissions before cutoff datetime" branch can never
produce a per-student output line. -/
theorem C6_selection_in_list_late_dead :
    (∀ subs : List Submission, subs ≠ [] →
      (∀ x ∈ subs, parsesOk x = true) →
      ∃ r, find_accepted_submission subs = Except.ok r ∧ r ∈ subs) ∧
    (∀ (users : List RemoteUser) (subsResp : Int → SubmissionsResponse)
        (now : String) (student : StudentRecord),
      process_student users subsResp now student ≠
        Except.ok "LATE - No valid submissions before cutoff datetime") := by
  constructor
  · intro subs hne hp
    obtain ⟨r, kr, pre, post, hfind, _, hdec, _, _⟩ :=
      find_accepted_submission_spec subs hne hp
    refine ⟨r, hfind, ?_⟩
    rw [hdec]
    exact List.mem_append_right _ (List.mem_cons_self r post)
  · intro users subsResp now student h
    unfold process_student at h
    rcases hl : user_dict_lookup users student.email with _ | sid <;>
      rw [hl] at h
    · exact missing_url_ne_late _ (Except.ok.inj h)
    · by_cases hs : fetch_submissions (subsResp sid) = []
      · simp only [hs, if_pos] at h
        exact notice_ne_late now (Except.ok.inj h)
      · simp only [if_neg hs] at h
        rcases hf : find_accepted_submission (fetch_submissions (subsResp sid))
          with e | latest <;> rw [hf] at h
        · exact Except.noConfusion h
        · simp only [submissionTruthy, if_pos] at h
          exact submission_url_ne_late sid latest.id (Except.ok.inj h)

theorem C6_selection_in_list_late_dead_witness :
    (∃ r, find_accepted_submission
        [Submission.mk 11 "2024-03-01T10:00:00Z",
         Submission.mk 22 "2024-03-02T09:00:00Z"] = Except.ok r ∧
      r ∈ [Submission.mk 11 "2024-03-01T10:00:00Z",
           Submission.mk 22 "2024-03-02T09:00:00Z"]) ∧
    process_student [] (fun _ => SubmissionsResponse.mk 200 []) "now"
      { first_name := "Jane", last_name := "Doe", email := "jane@uni.edu" } ≠
      Except.ok "LATE - No valid submissions before cutoff datetime" :=
  ⟨C6_selection_in_list_late_dead.1
      [Submission.mk 11 "2024-03-01T10:00:00Z",
       Submission.mk 22 "2024-03-02T09:00:00Z"] (by decide) (by decide),
    C6_selection_in_list_late_dead.2 [] (fun _ => SubmissionsResponse.mk 200 [])
      "now" { first_name := "Jane", last_name := "Doe",
              email := "jane@uni.edu" }⟩

/-- C7: a non-success directory response yields an empty user list, and an
empty user list aborts the run with no per-student output; a non-success
per-student submissions response yields an empty list treated as "no
submissions" for that student only, and every student still receives an
output line (one line per roster record). -/
theorem C7_fetch_failure_handling :
    (∀ r : UsersResponse, r.status_code ≠ 200 → fetch_users r = []) ∧
    (∀ (roster : Option (List String)) (usersResp : UsersResponse)
        (subsResp : Int → SubmissionsResponse) (now : String)
        (lines : List String),
      fetch_users usersResp = [] →
      script_main roster usersResp subsResp now = Except.ok lines →
      lines = []) ∧
    (∀ r : SubmissionsResponse, r.status_code ≠ 200 →
      fetch_submissions r = []) ∧
    (∀ (users : List RemoteUser) (subsResp : Int → SubmissionsResponse)
        (now : String) (student : StudentRecord) (sid : Int),
      user_dict_lookup users student.email = some sid →
      (subsResp sid).status_code ≠ 200 →
      process_student users subsResp now student =
        Except.ok ("No submissions found, as of " ++ now)) ∧
    (∀ (roster : Option (List String)) (usersResp : UsersResponse)
        (subsResp : Int → SubmissionsResponse) (now : String)
        (students : List StudentRecord) (lines : List String),
      read_student_data roster = Except.ok students →
      script_main roster usersResp subsResp now = Except.ok lines →
      lines = [] ∨ lines.length = students.length) := by
  refine ⟨?_, ?_, ?_, ?_, ?_⟩
  · intro r h
    unfold fetch_users
    rw [if_neg h]
  · intro roster usersResp subsResp now lines hu hrun
    unfold script_main at hrun
    rcases hr : read_student_data roster with e | students <;> rw [hr] at hrun
    · exact Except.noConfusion hrun
    · dsimp only at hrun
      by_cases hstud : students = []
      · rw [if_pos hstud] at hrun
        exact (Except.ok.inj hrun).symm
      · rw [if_neg hstud] at hrun
        simp only [hu, if_pos] at hrun
        exact (Except.ok.inj hrun).symm
  · intro r h
    unfold fetch_submissions
    rw [if_neg h]
  · intro users subsResp now student sid hl hstatus
    refine process_student_notice users subsResp now student sid hl ?_
    unfold fetch_submissions
    rw [if_neg hstatus]
  · intro roster usersResp subsResp now students lines hr hrun
    unfold script_main at hrun
    rw [hr] at hrun
    dsimp only at hrun
    by_cases hstud : students = []
    · rw [if_pos hstud] at hrun
      exact Or.inl (Except.ok.inj hrun).symm
    · rw [if_neg hstud] at hrun
      by_cases hu : fetch_users usersResp = []
      · simp only [hu, if_pos] at hrun
        exact Or.inl (Except.ok.inj hrun).symm
      · simp only [if_neg hu] at hrun
        exact Or.inr (mapM_ok_length _ students lines hrun)

theorem C7_fetch_failure_handling_witness :
    fetch_users (UsersResponse.mk 500 [RemoteUser.mk "jane@uni.edu" 7]) = [] ∧
    ([] : List String) = [] ∧
    fetch_submissions (SubmissionsResponse.mk 500
      [Submission.mk 99 "2024-01-01T00:00:00Z"]) = [] ∧
    process_student [RemoteUser.mk "jane@uni.edu" 7]
      (fun _ => SubmissionsResponse.mk 500
        [Submission.mk 99 "2024-01-01T00:00:00Z"]) "now"
      { first_name := "Jane", last_name := "Doe", email := "jane@uni.edu" } =
      Except.ok ("No submissions found, as of " ++ "now") ∧
    (["No submissions found, as of now"] = ([] : List String) ∨
      (["No submissions found, as of now"] : List String).length =
        [StudentRecord.mk "Jane" "Doe" "jane@uni.edu"].length) :=
  ⟨C7_fetch_failure_handling.1
      (UsersResponse.mk 500 [RemoteUser.mk "jane@uni.edu" 7]) (by decide),
    C7_fetch_failure_handling.2.1
      (some ["Jane\tDoe\t-\tjane@uni.edu"])
      (UsersResponse.mk 500 [RemoteUser.mk "jane@uni.edu" 7])
      (fun _ => SubmissionsResponse.mk 200 []) "now" [] (by decide)
      (by decide),
    C7_fetch_failure_handling.2.2.1
      (SubmissionsResponse.mk 500 [Submission.mk 99 "2024-01-01T00:00:00Z"])
      (by decide),
    C7_fetch_failure_handling.2.2.2.1 [RemoteUser.mk "jane@uni.edu" 7]
      (fun _ => SubmissionsResponse.mk 500
        [Submission.mk 99 "2024-01-01T00:00:00Z"]) "now"
      { first_name := "Jane", last_name := "Doe", email := "jane@uni.edu" } 7
      (by decide) (by decide),
    C7_fetch_failure_handling.2.2.2.2
      (some ["Jane\tDoe\t-\tjane@uni.edu"])
      (UsersResponse.mk 200 [RemoteUser.mk "jane@uni.edu" 7])
      (fun _ => SubmissionsResponse.mk 500 []) "now"
      [StudentRecord.mk "Jane" "Doe" "jane@uni.edu"]
      ["No submissions found, as of now"] (by decide) (by decide)⟩

/-- C9: a directory user whose email contains an (ASCII) uppercase
character can never be matched by any record `read_student_data` produces:
roster emails are lower-cased at read time while directory emails are used
verbatim as the mapping's keys, and the join compares the strings exactly.
In particular the lookup over a directory consisting of such users always
misses. -/
theorem C9_uppercase_directory_email_unmatched
    (lines : List String) (students : List StudentRecord)
    (hread : read_student_data (some lines) = Except.ok students) :
    ∀ st ∈ students,
      (∀ u : RemoteUser, (∃ c ∈ u.email.data, c.isUpper = true) →
        st.email ≠ u.email) ∧
      (∀ users : List RemoteUser,
        (∀ v ∈ users, ∃ c ∈ v.email.data, c.isUpper = true) →
        user_dict_lookup users st.email = none) := by
  intro st hst
  have hread2 : (lines.filter (fun l => l ≠ "")).mapM
      (fun l => parseRow (splitTab l)) = Except.ok students := hread
  obtain ⟨l, _, hrow⟩ := mapM_ok_mem _ _ _ hread2 st hst
  obtain ⟨e, he⟩ := parseRow_email_shape hrow
  have hne : ∀ u : RemoteUser, (∃ c ∈ u.email.data, c.isUpper = true) →
      st.email ≠ u.email := by
    rintro u ⟨c, hc, hup⟩ heq
    have hmem : c ∈ st.email.data := by
      rw [heq]
      exact hc
    rw [he] at hmem
    have hflat := pyLower_no_upper (pyStrip e) c hmem
    rw [hup] at hflat
    exact Bool.noConfusion hflat
  refine ⟨hne, ?_⟩
  intro users hall
  exact user_dict_lookup_none st.email users
    (fun v hv => Ne.symm (hne v (hall v hv)))

theorem C9_uppercase_directory_email_unmatched_witness :
    (("jane@uni.edu" : String) ≠ "JANE@UNI.EDU") ∧
    user_dict_lookup [RemoteUser.mk "JANE@UNI.EDU" 3] "jane@uni.edu" =
      none := by
  have h := C9_uppercase_directory_email_unmatched
    ["Jane\tDoe\t-\tJane@Uni.Edu"]
    [{ first_name := "Jane", last_name := "Doe", email := "jane@uni.edu" }]
    (by decide)
    { first_name := "Jane", last_name := "Doe", email := "jane@uni.edu" }
    (by decide)
  exact ⟨h.1 (RemoteUser.mk "JANE@UNI.EDU" 3) (by decide),
    h.2 [RemoteUser.mk "JANE@UNI.EDU" 3] (by decide)⟩

/-- C1: for a matched student with a non-empty submission list whose
parsed `created_at` values are pairwise distinct, the emitted line is the
submission link embedding the student id and the id of the submission
whose `created_at` (ISO-8601, trailing Z as UTC) is maximal: every other
submission parses strictly earlier. -/
theorem C1_latest_submission_link
    (users : List RemoteUser) (subsResp : Int → SubmissionsResponse)
    (now : String) (student : StudentRecord) (sid : Int)
    (hl : user_dict_lookup users student.email = some sid)
    (hne : fetch_submissions (subsResp sid) ≠ [])
    (hp : ∀ x ∈ fetch_submissions (subsResp sid), parsesOk x = true)
    (hpw : (fetch_submissions (subsResp sid)).Pairwise
      (fun a b =>
        parse_iso_datetime a.created_at ≠ parse_iso_datetime b.created_at)) :
    ∃ r kr, r ∈ fetch_submissions (subsResp sid) ∧
      parse_iso_datetime r.created_at = Except.ok kr ∧
      process_student users subsResp now student =
        Except.ok (SUBMISSION_URL sid r.id) ∧
      ∀ s ∈ fetch_submissions (subsResp sid), s ≠ r →
        ∀ ks, parse_iso_datetime s.created_at = Except.ok ks →
          PyDateTime.lt ks kr = true := by
  obtain ⟨r, kr, pre, post, hfind, hpr, hdec, hmax, _⟩ :=
    find_accepted_submission_spec _ hne hp
  have hrmem : r ∈ fetch_submissions (subsResp sid) := by
    rw [hdec]
    exact List.mem_append_right _ (List.mem_cons_self r post)
  have hproc : process_student users subsResp now student =
      Except.ok (SUBMISSION_URL sid r.id) := by
    unfold process_student
    rw [hl]
    simp only [if_neg hne]
    rw [hfind]
    simp only [submissionTruthy, if_pos]
  refine ⟨r, kr, hrmem, hpr, hproc, ?_⟩
  intro s hs hsr ks hks
  have hle := hmax s hs ks hks
  have hB1 := parse_iso_datetime_bounded hks
  have hB2 := parse_iso_datetime_bounded hpr
  have hkne : ks.key ≠ kr.key := by
    intro hkeq
    have hkk : ks = kr := PyDateTime.key_inj hB1 hB2 hkeq
    have hR := List.Pairwise.forall
      (R := fun a b =>
        parse_iso_datetime a.created_at ≠ parse_iso_datetime b.created_at)
      (fun a b h => Ne.symm h) hpw hs hrmem hsr
    apply hR
    rw [hks, hpr, hkk]
  exact (PyDateTime.lt_iff_key hB1 hB2).mpr (lt_of_le_of_ne hle hkne)

theorem C1_latest_submission_link_witness :
    ∃ r kr,
      r ∈ fetch_submissions
        ((fun _ => SubmissionsResponse.mk 200
          [Submission.mk 11 "2024-03-01T10:00:00Z",
           Submission.mk 22 "2024-03-02T09:00:00Z"]) (7 : Int)) ∧
      parse_iso_datetime r.created_at = Except.ok kr ∧
      process_student [RemoteUser.mk "jane@uni.edu" 7]
        (fun _ => SubmissionsResponse.mk 200
          [Submission.mk 11 "2024-03-01T10:00:00Z",
           Submission.mk 22 "2024-03-02T09:00:00Z"]) "now"
        { first_name := "Jane", last_name := "Doe",
          email := "jane@uni.edu" } =
        Except.ok (SUBMISSION_URL 7 r.id) ∧
      ∀ s ∈ fetch_submissions
          ((fun _ => SubmissionsResponse.mk 200
            [Submission.mk 11 "2024-03-01T10:00:00Z",
             Submission.mk 22 "2024-03-02T09:00:00Z"]) (7 : Int)),
        s ≠ r →
        ∀ ks, parse_iso_datetime s.created_at = Except.ok ks →
          PyDateTime.lt ks kr = true :=
  C1_latest_submission_link [RemoteUser.mk "jane@uni.edu" 7]
    (fun _ => SubmissionsResponse.mk 200
      [Submission.mk 11 "2024-03-01T10:00:00Z",
       Submission.mk 22 "2024-03-02T09:00:00Z"]) "now"
    { first_name := "Jane", last_name := "Doe", email := "jane@uni.edu" } 7
    (by decide) (by decide) (by decide) (by decide)

/-- C10: when several submissions share the maximal parsed `created_at`,
`find_accepted_submission` returns the first maximal submission in list
order: the result is maximal and everything strictly before it in the
list parses strictly earlier (Python's `max` keeps the earliest of the
tied elements). -/
theorem C10_tie_first_in_list (subs : List Submission)
    (hp : ∀ x ∈ subs, parsesOk x = true)
    (htie : ∃ s ∈ subs, ∃ t ∈ subs, s ≠ t ∧
      parse_iso_datetime s.created_at = parse_iso_datetime t.created_at ∧
      ∀ x ∈ subs, parsedKey x ≤ parsedKey s) :
    ∃ r kr pre post,
      find_accepted_submission subs = Except.ok r ∧
      parse_iso_datetime r.created_at = Except.ok kr ∧
      subs = pre ++ r :: post ∧
      (∀ x ∈ subs, ∀ kx, parse_iso_datetime x.created_at = Except.ok kx →
        kx.key ≤ kr.key) ∧
      (∀ x ∈ pre, ∀ kx, parse_iso_datetime x.created_at = Except.ok kx →
        kx.key < kr.key) := by
  obtain ⟨s, hs, _⟩ := htie
  have hne : subs ≠ [] := by
    intro h
    rw [h] at hs
    exact absurd hs (List.not_mem_nil s)
  exact find_accepted_submission_spec subs hne hp

theorem C10_tie_first_in_list_witness :
    ∃ r kr pre post,
      find_accepted_submission
        [Submission.mk 11 "2024-03-01T10:00:00Z",
         Submission.mk 22 "2024-03-01T10:00:00Z",
         Submission.mk 33 "2024-03-01T09:00:00Z"] = Except.ok r ∧
      parse_iso_datetime r.created_at = Except.ok kr ∧
      [Submission.mk 11 "2024-03-01T10:00:00Z",
       Submission.mk 22 "2024-03-01T10:00:00Z",
       Submission.mk 33 "2024-03-01T09:00:00Z"] = pre ++ r :: post ∧
      (∀ x ∈ [Submission.mk 11 "2024-03-01T10:00:00Z",
              Submission.mk 22 "2024-03-01T10:00:00Z",
              Submission.mk 33 "2024-03-01T09:00:00Z"],
        ∀ kx, parse_iso_datetime x.created_at = Except.ok kx →
          kx.key ≤ kr.key) ∧
      (∀ x ∈ pre, ∀ kx, parse_iso_datetime x.created_at = Except.ok kx →
        kx.key < kr.key) :=
  C10_tie_first_in_list
    [Submission.mk 11 "2024-03-01T10:00:00Z",
     Submission.mk 22 "2024-03-01T10:00:00Z",
     Submission.mk 33 "2024-03-01T09:00:00Z"]
    (by decide)
    ⟨Submission.mk 11 "2024-03-01T10:00:00Z", by decide,
     Submission.mk 22 "2024-03-01T10:00:00Z", by decide,
     by decide, by decide, by decide⟩
